import Mathlib

/-!
Verification of the EnhancedFontResizer plugin (`src/font_resizer.py`).

The plugin manipulates font sizes stored in host-editor settings stores.
A settings store is modelled as an association list from string keys to
JSON-ish values; a value is `Option Int` where `Option.none` stands for the
Python `None` / JSON `null` (which `settings.get` with no fallback returns
for an absent key).  Pure arithmetic is over `Int`; fallible operations
(arithmetic on a non-numeric setting would raise `TypeError` in Python)
return `Option`.
-/

set_option autoImplicit false

namespace FontResizer

/-- A stored setting value: an integer, or the Python `None` / JSON `null`. -/
abbrev Val := Option Int

/-- A settings store: a key-value dictionary, as an association list.
`set` replaces any existing entry for a key, `erase` deletes it, so the
list behaves exactly like a Python dict / Sublime settings object. -/
structure Store where
  entries : List (String × Val)
  deriving DecidableEq, Repr

/-- First-match lookup in an association list (the dict model keeps at most
one entry per key, so first-match is the dict lookup). -/
def lookupList : List (String × Val) → String → Option Val
  | [], _ => none
  | p :: t, k => if p.1 = k then some p.2 else lookupList t k

namespace Store

/-- The value stored for key `k`, if the key is present. -/
def lookup (s : Store) (k : String) : Option Val :=
  lookupList s.entries k

/-- Models `settings.get(k, d)`: the stored value for `k`, or the fallback
`d`. -/
def get (s : Store) (k : String) (d : Val) : Val :=
  (s.lookup k).getD d

/-- Models `settings.has(k)`: whether the key is present. -/
def has (s : Store) (k : String) : Bool :=
  (s.lookup k).isSome

/-- Models `settings.set(k, v)`: store value `v` under key `k`, replacing
any previous entry for that key. -/
def set (s : Store) (k : String) (v : Val) : Store :=
  ⟨s.entries.filter (fun p => p.1 != k) ++ [(k, v)]⟩

/-- Models `settings.erase(k)` and `del d[k]`: delete the entry for key
`k`. -/
def erase (s : Store) (k : String) : Store :=
  ⟨s.entries.filter (fun p => p.1 != k)⟩


end Store

/-! ## Constraint resolver (`BaseFontSize.global_font_constraints`) -/

/-- Models `BaseFontSize.global_font_constraints`: the `(default, min, max)`
font-size constraints read from the global preferences, with literal
fallbacks `(10, 8, 128)` for absent keys. -/
def global_font_constraints (settings : Store) : Val × Val × Val :=
  ( settings.get "default_font_size" (some 10)
  , settings.get "min_font_size" (some 8)
  , settings.get "max_font_size" (some 128) )

/-! ## Zoom engine arithmetic (bodies of `increase_font` / `decrease_font`) -/

/-- The step-then-clamp arithmetic of `BaseFontSize.increase_font`
(lines 91-99): add 4 when `current >= 36`, else 2 when `current >= 24`,
else 1, then clamp down to `max_font`. -/
def increase_font_calc (current max_font : Int) : Int :=
  let current :=
    if current ≥ 36 then current + 4
    else if current ≥ 24 then current + 2
    else current + 1
  if current > max_font then max_font else current

/-- The step-then-clamp arithmetic of `BaseFontSize.decrease_font`
(lines 112-120): subtract 4 when `current >= 40`, else 2 when
`current >= 26`, else 1, then clamp up to `min_font`. -/
def decrease_font_calc (current min_font : Int) : Int :=
  let current :=
    if current ≥ 40 then current - 4
    else if current ≥ 26 then current - 2
    else current - 1
  if current < min_font then min_font else current

/-! ## Shared command base (`BaseFontSize`) -/

/-- The per-domain methods that `BaseFontSize` operates through: how the
global preferences store is read out of the world state, and the domain's
`get_font_size`, `set_font_size` and `erase_font_size`. -/
structure FontSizeMethods (σ : Type) where
  prefs : σ → Store
  get_font_size : σ → Val
  set_font_size : σ → Val → σ
  erase_font_size : σ → σ

/-- Models `BaseFontSize.increase_font`: read the current size and the max
constraint, step and clamp, write back via `set_font_size`.  A `none`
result models Python raising `TypeError` when a stored value is the JSON
`null` rather than a number. -/
def increase_font {σ : Type} (m : FontSizeMethods σ) (s : σ) : Option σ := do
  let current ← m.get_font_size s
  let max_font ← (global_font_constraints (m.prefs s)).2.2
  pure (m.set_font_size s (some (increase_font_calc current max_font)))

/-- Models `BaseFontSize.decrease_font`: read the current size and the min
constraint, step down and clamp, write back via `set_font_size`. -/
def decrease_font {σ : Type} (m : FontSizeMethods σ) (s : σ) : Option σ := do
  let current ← m.get_font_size s
  let min_font ← (global_font_constraints (m.prefs s)).2.1
  pure (m.set_font_size s (some (decrease_font_calc current min_font)))

/-- Models `BaseFontSize.reset_font`: delegate to the domain's erase. -/
def reset_font {σ : Type} (m : FontSizeMethods σ) (s : σ) : σ :=
  m.erase_font_size s

/-- The console message printed for an unrecognized action (line 149). -/
def unknown_action_message (action : String) : String :=
  "plugin_name: unknown font action \x27" ++ action ++ "\x27 provided"

/-- Models `BaseFontSize.zoom_font`: dispatch on the action string; an
unknown action changes nothing and prints a diagnostic to the console
(returned here as the message list). -/
def zoom_font {σ : Type} (m : FontSizeMethods σ) (action : String) (s : σ) :
    Option σ × List String :=
  if action = "increase" then (increase_font m s, [])
  else if action = "decrease" then (decrease_font m s, [])
  else if action = "reset" then (some (reset_font m s), [])
  else (some s, [unknown_action_message action])

/-! ## The four domain adapters -/

/-- Models `GlobalFontSizeCommand`: the world is the global preferences
store itself.  `font_size` lives next to the constraint keys, and
`erase_font_size` re-sets the resolved default instead of deleting the
key. -/
def GlobalFontSizeCommand : FontSizeMethods Store where
  prefs := fun s => s
  get_font_size := fun s => s.get "font_size" (global_font_constraints s).1
  set_font_size := fun s v => s.set "font_size" v
  erase_font_size := fun s => s.set "font_size" (global_font_constraints s).1

/-- The project data of a window: the plugin only touches its `settings`
sub-dictionary, which may be absent. -/
structure ProjectData where
  settings : Option Store
  deriving DecidableEq, Repr

/-- World state of `WindowFontSizeCommand`: the global preferences plus
the window's project data; `window.project_data()` may return `None`. -/
structure WindowWorld where
  prefs : Store
  project_data : Option ProjectData
  deriving DecidableEq, Repr

/-- Models `WindowFontSizeCommand.get_window_settings`: the `settings`
sub-dictionary of the project data, or an empty dictionary when the
project data or the sub-key is absent. -/
def get_window_settings (w : Option ProjectData) : Store :=
  match w with
  | none => ⟨[]⟩
  | some pd => pd.settings.getD ⟨[]⟩

/-- Models `WindowFontSizeCommand.set_window_settings`: replace the
`settings` sub-dictionary of the (possibly freshly created) project data
and store it back into the window. -/
def set_window_settings (_w : Option ProjectData) (s : Store) : Option ProjectData :=
  some { settings := some s }

/-- Models `WindowFontSizeCommand`: reads and writes `font_size` inside
the window settings; `erase_font_size` deletes the key, writing back only
when the key was present. -/
def WindowFontSizeCommand : FontSizeMethods WindowWorld where
  prefs := fun w => w.prefs
  get_font_size := fun w =>
    (get_window_settings w.project_data).get "font_size" (global_font_constraints w.prefs).1
  set_font_size := fun w v =>
    { w with project_data := set_window_settings w.project_data ((get_window_settings w.project_data).set "font_size" v) }
  erase_font_size := fun w =>
    let settings := get_window_settings w.project_data
    if settings.has "font_size" then
      { w with project_data := set_window_settings w.project_data (settings.erase "font_size") }
    else w

/-- World state of `SyntaxFontSizeCommand`: the global preferences plus
the settings store named after the view's active grammar
(`stx_settings` models `sublime.load_settings(self.settings_file())`). -/
structure SyntaxWorld where
  prefs : Store
  stx_settings : Store
  deriving DecidableEq, Repr

/-- Models `SyntaxFontSizeCommand`: reads and writes `font_size` in the
grammar-specific settings store; `erase_font_size` deletes the key. -/
def SyntaxFontSizeCommand : FontSizeMethods SyntaxWorld where
  prefs := fun w => w.prefs
  get_font_size := fun w =>
    w.stx_settings.get "font_size" (global_font_constraints w.prefs).1
  set_font_size := fun w v => { w with stx_settings := w.stx_settings.set "font_size" v }
  erase_font_size := fun w => { w with stx_settings := w.stx_settings.erase "font_size" }

/-- World state of `ViewFontSizeCommand`: the global preferences plus the
per-view settings map (`self.view.settings()`). -/
structure ViewWorld where
  prefs : Store
  view_settings : Store
  deriving DecidableEq, Repr

/-- Models `ViewFontSizeCommand`: reads and writes `font_size` in the
view settings; `erase_font_size` deletes the key. -/
def ViewFontSizeCommand : FontSizeMethods ViewWorld where
  prefs := fun w => w.prefs
  get_font_size := fun w =>
    w.view_settings.get "font_size" (global_font_constraints w.prefs).1
  set_font_size := fun w v => { w with view_settings := w.view_settings.set "font_size" v }
  erase_font_size := fun w => { w with view_settings := w.view_settings.erase "font_size" }

/-! ## First-run initializer (`plugin_loaded`) -/

/-- The defaults dictionary built at the top of `plugin_loaded`: the
seed value of `default_font_size` is the current global `font_size`
(read with no fallback, so `none` when absent), and the literal seeds 8
and 128 for min and max. -/
def plugin_defaults (settings : Store) : List (String × Val) :=
  [ ("default_font_size", settings.get "font_size" none)
  , ("min_font_size", some 8)
  , ("max_font_size", some 128) ]

/-- One iteration of the seeding loop in `plugin_loaded`: write the
default only when the key is absent, recording that an update happened. -/
def seed_step : Store × Bool → String × Val → Store × Bool
  | (s, b), nd => if s.has nd.1 then (s, b) else (s.set nd.1 nd.2, true)

/-- Models `plugin_loaded`: seed each absent constraint key, then call
`sublime.save_settings` once if anything was written.  The second
component is the number of `save_settings` calls performed. -/
def plugin_loaded (settings : Store) : Store × Nat :=
  let r := (plugin_defaults settings).foldl seed_step (settings, false)
  (r.1, if r.2 then 1 else 0)

/-! ## Command rewriter (`FontResizeCommandRewriter`) -/

/-- Models `FontResizeCommandRewriter.on_window_command`: rewrite the
three built-in font-size commands to `global_font_size` with the matching
action; any other command falls through (Python returns `None`). -/
def on_window_command (command : String) : Option (String × List (String × String)) :=
  if command = "increase_font_size" then some ("global_font_size", [("action", "increase")])
  else if command = "decrease_font_size" then some ("global_font_size", [("action", "decrease")])
  else if command = "reset_font_size" then some ("global_font_size", [("action", "reset")])
  else none

/-! ## Dictionary lemmas for the store model -/

theorem Store.lookupList_filter_ne_self (l : List (String × Val)) (k : String) :
    lookupList (l.filter (fun p => p.1 != k)) k = none := by
  induction l with
  | nil => simp [lookupList]
  | cons p t ih =>
    by_cases hp : p.1 = k
    · simpa [List.filter_cons, hp] using ih
    · simpa [List.filter_cons, hp, lookupList] using ih

theorem Store.lookupList_filter_ne (l : List (String × Val)) (k k' : String) (h : k' ≠ k) :
    lookupList (l.filter (fun p => p.1 != k)) k' = lookupList l k' := by
  have hks : k ≠ k' := fun e => h e.symm
  induction l with
  | nil => simp
  | cons p t ih =>
    by_cases hp : p.1 = k
    · have hp' : p.1 ≠ k' := by rw [hp]; exact hks
      simp [List.filter_cons, hp, lookupList, hp', h, hks, ih]
    · by_cases hp' : p.1 = k'
      · simp [List.filter_cons, hp, lookupList, hp', h, hks]
      · simp [List.filter_cons, hp, lookupList, hp', h, hks, ih]

theorem Store.lookup_set_self (s : Store) (k : String) (v : Val) :
    (s.set k v).lookup k = some v := by
  unfold Store.set Store.lookup
  induction s.entries with
  | nil => simp [lookupList]
  | cons p t ih =>
    by_cases hp : p.1 = k
    · simpa [List.filter_cons, hp] using ih
    · simpa [List.filter_cons, hp, lookupList] using ih

theorem Store.lookup_set_ne (s : Store) (k k' : String) (v : Val) (h : k' ≠ k) :
    (s.set k v).lookup k' = s.lookup k' := by
  unfold Store.set Store.lookup
  have hks : k ≠ k' := fun e => h e.symm
  induction s.entries with
  | nil => simp [lookupList, hks]
  | cons p t ih =>
    by_cases hp : p.1 = k
    · have hp' : p.1 ≠ k' := by rw [hp]; exact hks
      simp only [List.filter_cons] at ih ⊢
      simp [hp, lookupList, hp', h, hks, ih]
    · by_cases hp' : p.1 = k'
      · simp [List.filter_cons, hp, lookupList, hp', h, hks]
      · simp only [List.filter_cons] at ih ⊢
        simp [hp, lookupList, hp', h, hks, ih]

theorem Store.lookup_erase_self (s : Store) (k : String) :
    (s.erase k).lookup k = none := by
  unfold Store.erase Store.lookup
  exact lookupList_filter_ne_self s.entries k

theorem Store.lookup_erase_ne (s : Store) (k k' : String) (h : k' ≠ k) :
    (s.erase k).lookup k' = s.lookup k' := by
  unfold Store.erase Store.lookup
  exact lookupList_filter_ne s.entries k k' h

theorem Store.has_set_self (s : Store) (k : String) (v : Val) :
    (s.set k v).has k = true := by
  simp [Store.has, lookup_set_self]

theorem Store.has_set_ne (s : Store) (k k' : String) (v : Val) (h : k' ≠ k) :
    (s.set k v).has k' = s.has k' := by
  simp [Store.has, lookup_set_ne s k k' v h]

theorem Store.filter_ne_idem (l : List (String × Val)) (k : String) :
    (l.filter (fun p => p.1 != k)).filter (fun p => p.1 != k)
      = l.filter (fun p => p.1 != k) := by
  induction l with
  | nil => simp
  | cons p t ih =>
    by_cases hp : p.1 = k
    · simp [List.filter_cons, hp, ih]
    · simp [List.filter_cons, hp, ih]

theorem Store.set_set_self (s : Store) (k : String) (v : Val) :
    (s.set k v).set k v = s.set k v := by
  unfold Store.set
  simp only [List.filter_append]
  have hnil : List.filter (fun p => p.1 != k) [(k, v)] = ([] : List (String × Val)) := by
    simp [List.filter_cons]
  rw [hnil, List.append_nil, filter_ne_idem]

theorem Store.has_get (s : Store) (k : String) (d : Val) (h : s.has k = true) :
    s.lookup k = some (s.get k d) := by
  unfold Store.has at h
  unfold Store.get
  cases hv : s.lookup k with
  | none => rw [hv] at h; simp at h
  | some v => simp [hv]

/-! ## Zoom engine lemmas -/

theorem increase_font_calc_eq_min (current max_font : Int) :
    increase_font_calc current max_font
      = min (current + (if current ≥ 36 then 4 else if current ≥ 24 then 2 else 1)) max_font := by
  simp only [increase_font_calc]
  split_ifs <;> omega

theorem decrease_font_calc_eq_max (current min_font : Int) :
    decrease_font_calc current min_font
      = max (current - (if current ≥ 40 then 4 else if current ≥ 26 then 2 else 1)) min_font := by
  simp only [decrease_font_calc]
  split_ifs <;> omega

/-! ## First-run initializer lemmas -/

theorem seed_foldl_preserves (l : List (String × Val)) (s : Store) (b : Bool) (k : String)
    (h : s.has k = true) :
    (l.foldl seed_step (s, b)).1.lookup k = s.lookup k
    ∧ (l.foldl seed_step (s, b)).1.has k = true := by
  induction l generalizing s b with
  | nil => exact ⟨rfl, h⟩
  | cons nd t ih =>
    simp only [List.foldl_cons, seed_step]
    by_cases hnd : s.has nd.1 = true
    · rw [if_pos hnd]
      exact ih s b h
    · rw [if_neg hnd]
      have hk : k ≠ nd.1 := fun e => hnd (by rw [← e]; exact h)
      have h' : (s.set nd.1 nd.2).has k = true := by
        rw [Store.has_set_ne s nd.1 k nd.2 hk]; exact h
      refine ⟨?_, (ih (s.set nd.1 nd.2) true h').2⟩
      rw [(ih (s.set nd.1 nd.2) true h').1, Store.lookup_set_ne s nd.1 k nd.2 hk]

theorem seed_foldl_seeded (l : List (String × Val)) :
    ∀ (s : Store) (b : Bool) (nd : String × Val), nd ∈ l →
      (l.foldl seed_step (s, b)).1.has nd.1 = true := by
  induction l with
  | nil => intro s b nd hmem; cases hmem
  | cons hd t ih =>
    intro s b nd hmem
    simp only [List.foldl_cons, seed_step]
    rcases List.mem_cons.mp hmem with he | ht
    · subst he
      by_cases hnd : s.has nd.1 = true
      · rw [if_pos hnd]
        exact (seed_foldl_preserves t s b nd.1 hnd).2
      · rw [if_neg hnd]
        exact (seed_foldl_preserves t (s.set nd.1 nd.2) true nd.1
          (Store.has_set_self s nd.1 nd.2)).2
    · by_cases hnd : s.has hd.1 = true
      · rw [if_pos hnd]
        exact ih s b nd ht
      · rw [if_neg hnd]
        exact ih (s.set hd.1 hd.2) true nd ht

theorem seed_foldl_noop (l : List (String × Val)) :
    ∀ (s : Store) (b : Bool), (∀ nd ∈ l, s.has nd.1 = true) →
      l.foldl seed_step (s, b) = (s, b) := by
  induction l with
  | nil => intro s b _; rfl
  | cons hd t ih =>
    intro s b h
    simp only [List.foldl_cons, seed_step]
    rw [if_pos (h hd (List.mem_cons_self hd t))]
    exact ih s b (fun nd hnd => h nd (List.mem_cons_of_mem hd hnd))

theorem seed_foldl_flag_true (l : List (String × Val)) (s : Store) :
    (l.foldl seed_step (s, true)).2 = true := by
  induction l generalizing s with
  | nil => rfl
  | cons hd t ih =>
    simp only [List.foldl_cons, seed_step]
    by_cases hnd : s.has hd.1 = true
    · rw [if_pos hnd]
      exact ih s
    · rw [if_neg hnd]
      exact ih (s.set hd.1 hd.2)

theorem seed_foldl_flag_iff (l : List (String × Val)) (s : Store) :
    ((l.foldl seed_step (s, false)).2 = false) ↔ ∀ nd ∈ l, s.has nd.1 = true := by
  induction l generalizing s with
  | nil => simp
  | cons hd t ih =>
    simp only [List.foldl_cons, seed_step, List.forall_mem_cons]
    by_cases hnd : s.has hd.1 = true
    · rw [if_pos hnd, ih s]
      simp [hnd]
    · rw [if_neg hnd]
      simp [seed_foldl_flag_true t (s.set hd.1 hd.2), hnd]

/-! ## Claim theorems -/

/-- C1: for every current size and configured maximum, `increase_font`
computes `min(current + step, max)` with step 4 when `current ≥ 36`, else
2 when `current ≥ 24`, else 1, and writes that clamped value back via
`set_font_size`. -/
theorem claim_C1 {σ : Type} (m : FontSizeMethods σ) (s : σ) (current max_font : Int)
    (hc : m.get_font_size s = some current)
    (hm : (global_font_constraints (m.prefs s)).2.2 = some max_font) :
    increase_font m s
      = some (m.set_font_size s (some (min
          (current + (if current ≥ 36 then 4 else if current ≥ 24 then 2 else 1)) max_font))) := by
  unfold increase_font
  rw [hc, hm]
  simp [increase_font_calc_eq_min]

theorem claim_C1_witness :
    increase_font GlobalFontSizeCommand ⟨[("font_size", some 20)]⟩
      = some (GlobalFontSizeCommand.set_font_size ⟨[("font_size", some 20)]⟩ (some (min
          (20 + (if (20 : Int) ≥ 36 then 4 else if (20 : Int) ≥ 24 then 2 else 1)) 128))) :=
  claim_C1 GlobalFontSizeCommand ⟨[("font_size", some 20)]⟩ 20 128 (by decide) (by decide)

/-- C2: for every current size and configured minimum, `decrease_font`
computes `max(current - step, min)` with step 4 when `current ≥ 40`, else
2 when `current ≥ 26`, else 1, and writes it back via `set_font_size`; in
particular (with min 8) decreasing from 40 gives 36, from 26 gives 24 and
from 25 gives 24. -/
theorem claim_C2 {σ : Type} (m : FontSizeMethods σ) (s : σ) (current min_font : Int)
    (hc : m.get_font_size s = some current)
    (hm : (global_font_constraints (m.prefs s)).2.1 = some min_font) :
    (decrease_font m s
      = some (m.set_font_size s (some (max
          (current - (if current ≥ 40 then 4 else if current ≥ 26 then 2 else 1)) min_font))))
    ∧ decrease_font_calc 40 8 = 36
    ∧ decrease_font_calc 26 8 = 24
    ∧ decrease_font_calc 25 8 = 24 := by
  refine ⟨?_, by decide, by decide, by decide⟩
  unfold decrease_font
  rw [hc, hm]
  simp [decrease_font_calc_eq_max]

theorem claim_C2_witness :
    decrease_font GlobalFontSizeCommand ⟨[("font_size", some 30)]⟩
      = some (GlobalFontSizeCommand.set_font_size ⟨[("font_size", some 30)]⟩ (some (max
          (30 - (if (30 : Int) ≥ 40 then 4 else if (30 : Int) ≥ 26 then 2 else 1)) 8))) :=
  (claim_C2 GlobalFontSizeCommand ⟨[("font_size", some 30)]⟩ 30 8 (by decide) (by decide)).1

/-- C3: for every current size in `[8, 128]` with max constraint 128, a
single increase yields a size that is at most 128 and at least the
starting size. -/
theorem claim_C3 (current : Int) (h1 : 8 ≤ current) (h2 : current ≤ 128) :
    increase_font_calc current 128 ≤ 128 ∧ current ≤ increase_font_calc current 128 := by
  simp only [increase_font_calc]
  split_ifs <;> omega

theorem claim_C3_witness :
    increase_font_calc 125 128 ≤ 128 ∧ (125 : Int) ≤ increase_font_calc 125 128 :=
  claim_C3 125 (by decide) (by decide)

/-- C4: for every action outside increase, decrease and reset,
`zoom_font` leaves the world state unchanged in every domain and only
emits the diagnostic console message. -/
theorem claim_C4 {σ : Type} (m : FontSizeMethods σ) (action : String) (s : σ)
    (h1 : action ≠ "increase") (h2 : action ≠ "decrease") (h3 : action ≠ "reset") :
    zoom_font m action s = (some s, [unknown_action_message action]) := by
  simp [zoom_font, h1, h2, h3]

theorem claim_C4_witness :
    zoom_font GlobalFontSizeCommand "zoom" ⟨[("font_size", some 12)]⟩
      = (some ⟨[("font_size", some 12)]⟩, [unknown_action_message "zoom"]) :=
  claim_C4 GlobalFontSizeCommand "zoom" ⟨[("font_size", some 12)]⟩
    (by decide) (by decide) (by decide)

/-- C5: in the Window, Syntax and View domains, after `erase_font_size`
the stored `font_size` key is truly absent, and a subsequent
`get_font_size` returns the resolved default of the global constraints. -/
theorem claim_C5 (w : WindowWorld) (sy : SyntaxWorld) (vw : ViewWorld) :
    ((get_window_settings (WindowFontSizeCommand.erase_font_size w).project_data).has "font_size" = false
      ∧ WindowFontSizeCommand.get_font_size (WindowFontSizeCommand.erase_font_size w)
          = (global_font_constraints w.prefs).1)
    ∧ ((SyntaxFontSizeCommand.erase_font_size sy).stx_settings.has "font_size" = false
      ∧ SyntaxFontSizeCommand.get_font_size (SyntaxFontSizeCommand.erase_font_size sy)
          = (global_font_constraints sy.prefs).1)
    ∧ ((ViewFontSizeCommand.erase_font_size vw).view_settings.has "font_size" = false
      ∧ ViewFontSizeCommand.get_font_size (ViewFontSizeCommand.erase_font_size vw)
          = (global_font_constraints vw.prefs).1) := by
  have hget : ∀ (st : Store) (d : Val), (st.erase "font_size").get "font_size" d = d := by
    intro st d
    simp [Store.get, Store.lookup_erase_self]
  have hhas : ∀ st : Store, (st.erase "font_size").has "font_size" = false := by
    intro st
    simp [Store.has, Store.lookup_erase_self]
  refine ⟨⟨?_, ?_⟩, ⟨hhas _, hget _ _⟩, hhas _, hget _ _⟩
  · simp only [WindowFontSizeCommand]
    split
    · simp [set_window_settings, get_window_settings, hhas]
    · rename_i h
      simpa using h
  · simp only [WindowFontSizeCommand]
    split
    · simp [set_window_settings, get_window_settings, hget]
    · rename_i h
      cases hl : (get_window_settings w.project_data).lookup "font_size" with
      | none => simp [Store.get, hl]
      | some v => exact absurd (by simp [Store.has, hl]) h

/-- C6: in the Global domain, reset (erase, implemented as set-to-default)
is idempotent, and after it the stored `font_size` equals the resolved
default. -/
theorem claim_C6 (prefs : Store) :
    GlobalFontSizeCommand.erase_font_size (GlobalFontSizeCommand.erase_font_size prefs)
        = GlobalFontSizeCommand.erase_font_size prefs
    ∧ (GlobalFontSizeCommand.erase_font_size prefs).lookup "font_size"
        = some (global_font_constraints prefs).1 := by
  have hne : ("default_font_size" : String) ≠ "font_size" := by decide
  have hconst :
      (global_font_constraints (prefs.set "font_size" (global_font_constraints prefs).1)).1
        = (global_font_constraints prefs).1 := by
    simp [global_font_constraints, Store.get, Store.lookup_set_ne _ _ _ _ hne]
  constructor
  · simp only [GlobalFontSizeCommand]
    rw [hconst, Store.set_set_self]
  · exact Store.lookup_set_self prefs "font_size" (global_font_constraints prefs).1

/-- C7: `plugin_loaded` never overwrites a key already present (so a
second run writes nothing and the store is unchanged), and the
persist-to-disk call happens at most once — the save count is 0 exactly
when all three constraint keys were already present.  In the embedding
the save is performed after the whole seeding loop, matching the source
placement. -/
theorem claim_C7 (prefs : Store) :
    (∀ k : String, prefs.has k = true → (plugin_loaded prefs).1.lookup k = prefs.lookup k)
    ∧ plugin_loaded (plugin_loaded prefs).1 = ((plugin_loaded prefs).1, 0)
    ∧ (plugin_loaded prefs).2 ≤ 1
    ∧ ((plugin_loaded prefs).2 = 0 ↔
        (prefs.has "default_font_size" = true ∧ prefs.has "min_font_size" = true
          ∧ prefs.has "max_font_size" = true)) := by
  refine ⟨?_, ?_, ?_, ?_⟩
  · intro k hk
    simpa [plugin_loaded] using (seed_foldl_preserves (plugin_defaults prefs) prefs false k hk).1
  · have h1 : (plugin_loaded prefs).1.has "default_font_size" = true := by
      simpa [plugin_loaded] using
        seed_foldl_seeded (plugin_defaults prefs) prefs false
          ("default_font_size", prefs.get "font_size" none) (by simp [plugin_defaults])
    have h2 : (plugin_loaded prefs).1.has "min_font_size" = true := by
      simpa [plugin_loaded] using
        seed_foldl_seeded (plugin_defaults prefs) prefs false
          ("min_font_size", some 8) (by simp [plugin_defaults])
    have h3 : (plugin_loaded prefs).1.has "max_font_size" = true := by
      simpa [plugin_loaded] using
        seed_foldl_seeded (plugin_defaults prefs) prefs false
          ("max_font_size", some 128) (by simp [plugin_defaults])
    have hall : ∀ nd ∈ plugin_defaults (plugin_loaded prefs).1,
        (plugin_loaded prefs).1.has nd.1 = true := by
      intro nd hnd
      simp only [plugin_defaults, List.mem_cons, List.not_mem_nil, or_false] at hnd
      rcases hnd with h | h | h
      · rw [h]; exact h1
      · rw [h]; exact h2
      · rw [h]; exact h3
    have hno := seed_foldl_noop (plugin_defaults (plugin_loaded prefs).1)
      (plugin_loaded prefs).1 false hall
    have hstep : plugin_loaded (plugin_loaded prefs).1
        = (((plugin_defaults (plugin_loaded prefs).1).foldl seed_step
              ((plugin_loaded prefs).1, false)).1,
           if ((plugin_defaults (plugin_loaded prefs).1).foldl seed_step
              ((plugin_loaded prefs).1, false)).2 = true then 1 else 0) := rfl
    rw [hstep, hno]
    rfl
  · cases h : ((plugin_defaults prefs).foldl seed_step (prefs, false)).2 <;>
      simp [plugin_loaded, h]
  · have hflag := seed_foldl_flag_iff (plugin_defaults prefs) prefs
    cases h : ((plugin_defaults prefs).foldl seed_step (prefs, false)).2 with
    | false =>
      rw [h] at hflag
      simp only [plugin_loaded, h, if_false]
      simpa [plugin_defaults, List.forall_mem_cons] using hflag
    | true =>
      rw [h] at hflag
      simp only [plugin_loaded, h, if_true]
      simpa [plugin_defaults, List.forall_mem_cons] using hflag

theorem claim_C7_witness :
    (plugin_loaded ⟨[("font_size", some 14), ("min_font_size", some 9)]⟩).1.lookup "min_font_size"
      = Store.lookup ⟨[("font_size", some 14), ("min_font_size", some 9)]⟩ "min_font_size" :=
  (claim_C7 ⟨[("font_size", some 14), ("min_font_size", some 9)]⟩).1 "min_font_size" (by decide)

/-- C8: for each constraint key absent at load time, `plugin_loaded`
seeds `default_font_size` with the current global `font_size` value,
`min_font_size` with 8 and `max_font_size` with 128. -/
theorem claim_C8 (prefs : Store) :
    (prefs.has "default_font_size" = false →
      (plugin_loaded prefs).1.lookup "default_font_size" = some (prefs.get "font_size" none))
    ∧ (prefs.has "min_font_size" = false →
      (plugin_loaded prefs).1.lookup "min_font_size" = some (some 8))
    ∧ (prefs.has "max_font_size" = false →
      (plugin_loaded prefs).1.lookup "max_font_size" = some (some 128)) := by
  have n1 : ("min_font_size" : String) ≠ "default_font_size" := by decide
  have n2 : ("max_font_size" : String) ≠ "default_font_size" := by decide
  have n3 : ("max_font_size" : String) ≠ "min_font_size" := by decide
  have n4 : ("default_font_size" : String) ≠ "min_font_size" := by decide
  have n5 : ("default_font_size" : String) ≠ "max_font_size" := by decide
  have n6 : ("min_font_size" : String) ≠ "max_font_size" := by decide
  refine ⟨fun habs => ?_, fun habs => ?_, fun habs => ?_⟩ <;>
    cases h1 : prefs.has "default_font_size" <;>
    cases h2 : prefs.has "min_font_size" <;>
    cases h3 : prefs.has "max_font_size" <;>
      simp_all [plugin_loaded, plugin_defaults, seed_step,
        Store.has_set_ne, Store.has_set_self, Store.lookup_set_ne, Store.lookup_set_self,
        n1, n2, n3, n4, n5, n6]

theorem claim_C8_witness :
    (plugin_loaded ⟨[("font_size", some 14)]⟩).1.lookup "default_font_size"
        = some (Store.get ⟨[("font_size", some 14)]⟩ "font_size" none)
    ∧ (plugin_loaded ⟨[("font_size", some 14)]⟩).1.lookup "min_font_size" = some (some 8)
    ∧ (plugin_loaded ⟨[("font_size", some 14)]⟩).1.lookup "max_font_size" = some (some 128) :=
  ⟨(claim_C8 ⟨[("font_size", some 14)]⟩).1 (by decide),
   (claim_C8 ⟨[("font_size", some 14)]⟩).2.1 (by decide),
   (claim_C8 ⟨[("font_size", some 14)]⟩).2.2 (by decide)⟩

/-- C9: `on_window_command` rewrites exactly the three built-in commands
to `global_font_size` with the matching action, and returns nothing for
every other command name. -/
theorem claim_C9 :
    on_window_command "increase_font_size" = some ("global_font_size", [("action", "increase")])
    ∧ on_window_command "decrease_font_size" = some ("global_font_size", [("action", "decrease")])
    ∧ on_window_command "reset_font_size" = some ("global_font_size", [("action", "reset")])
    ∧ ∀ command : String, command ≠ "increase_font_size" → command ≠ "decrease_font_size" →
        command ≠ "reset_font_size" → on_window_command command = none := by
  refine ⟨rfl, rfl, rfl, ?_⟩
  intro command h1 h2 h3
  simp [on_window_command, h1, h2, h3]

theorem claim_C9_witness : on_window_command "goto_definition" = none :=
  claim_C9.2.2.2 "goto_definition" (by decide) (by decide) (by decide)

/-- C10: an over-range current size is pulled down exactly onto the
maximum by `increase_font`, and an under-range one is pulled up exactly
onto the minimum by `decrease_font`. -/
theorem claim_C10 {σ : Type} (m : FontSizeMethods σ) (s : σ) (current mx mn : Int)
    (hc : m.get_font_size s = some current) :
    ((global_font_constraints (m.prefs s)).2.2 = some mx → mx < current →
      increase_font m s = some (m.set_font_size s (some mx)))
    ∧ ((global_font_constraints (m.prefs s)).2.1 = some mn → current < mn →
      decrease_font m s = some (m.set_font_size s (some mn))) := by
  constructor
  · intro hm hlt
    unfold increase_font
    rw [hc, hm]
    have : increase_font_calc current mx = mx := by
      simp only [increase_font_calc]; split_ifs <;> omega
    simp [this]
  · intro hm hlt
    unfold decrease_font
    rw [hc, hm]
    have : decrease_font_calc current mn = mn := by
      simp only [decrease_font_calc]; split_ifs <;> omega
    simp [this]

theorem claim_C10_witness :
    (increase_font GlobalFontSizeCommand ⟨[("font_size", some 200)]⟩
      = some (GlobalFontSizeCommand.set_font_size ⟨[("font_size", some 200)]⟩ (some 128)))
    ∧ (decrease_font GlobalFontSizeCommand ⟨[("font_size", some 3)]⟩
      = some (GlobalFontSizeCommand.set_font_size ⟨[("font_size", some 3)]⟩ (some 8))) :=
  ⟨(claim_C10 GlobalFontSizeCommand ⟨[("font_size", some 200)]⟩ 200 128 8
      (by decide)).1 (by decide) (by decide),
   (claim_C10 GlobalFontSizeCommand ⟨[("font_size", some 3)]⟩ 3 128 8
      (by decide)).2 (by decide) (by decide)⟩

end FontResizer
